import Mathlib

/-!
Verification of the bg-color-palette-lab tools: a shallow embedding of the
parts of `darkscore-select.cpp`, `validator.cpp`, `grouper.cpp` and
`utils.cpp` that the specification's claims are about, together with
theorems settling each claim.

Conventions of the embedding:
* machine floating-point scores and time durations are modelled as `ℚ`
  (no claim depends on rounding behaviour);
* code that throws a C++ exception is modelled with `Except`/`Option`;
* the pseudo-random `std::shuffle` calls are modelled by explicit
  permutation-valued parameters (one per shuffle site), since any
  permutation is a possible outcome of the RNG;
* worker-thread interleavings are modelled by explicit schedules.
-/

/-- `DarkScoreResult` from darkscore-select.cpp: a file path with its
darkness score. -/
structure DarkScoreResult where
  filePath : String
  score : ℚ
deriving DecidableEq, Repr

/-- `getDarknessBucket` from darkscore-select.cpp: maps a darkness score
(0 = bright, 1 = dark) to a bucket 0-5 (0 = darkest, 5 = brightest). -/
def getDarknessBucket (score : ℚ) : Nat :=
  if score > 9/10 then 0
  else if score > 8/10 then 1
  else if score > 6/10 then 2
  else if score > 4/10 then 3
  else if score > 2/10 then 4
  else if score > 0 then 5
  else 5

/-- `getTargetBucketForHour` from darkscore-select.cpp. -/
def getTargetBucketForHour (hour : Int) : Nat :=
  if hour ≥ 20 then 0
  else if hour ≥ 19 then 1
  else if hour ≥ 18 then 2
  else if hour ≥ 17 then 3
  else if hour ≥ 16 then 4
  else if hour ≥ 12 then 2
  else if hour ≥ 9 then 2
  else if hour ≥ 7 then 2
  else if hour ≥ 5 then 1
  else if hour ≥ 0 then 0
  else 0

/-- Splitting loop of `split`/`csv_split`: repeated `std::getline` with a
delimiter.  A trailing delimiter produces no empty final token (the last
`getline` extracts nothing and fails), and an empty input produces no
tokens; `acc` holds the characters of the token being read, reversed. -/
def csvSplitGo (d : Char) (acc : List Char) : List Char → List String
  | [] => [String.mk acc.reverse]
  | c :: cs =>
    if c = d then
      String.mk acc.reverse :: (if cs.isEmpty then [] else csvSplitGo d [] cs)
    else
      csvSplitGo d (c :: acc) cs

/-- `split` from darkscore-select.cpp (= `csv_split` from utils.cpp). -/
def csvSplit (d : Char) (s : String) : List String :=
  match s.data with
  | [] => []
  | cs => csvSplitGo d [] cs

/-- `loadBuckets` from darkscore-select.cpp.  `contents` is the opened
file as a list of lines (`none` when the file could not be opened, in
which case the 6 empty buckets are returned); `stod` is the
`std::stod` oracle (`none` models the exception on an unparseable
score, which skips the row); rows with fewer than 2 fields are skipped;
the first line (header) is skipped. -/
def loadBuckets (stod : String → Option ℚ) (delim : Char)
    (contents : Option (List String)) : List (List DarkScoreResult) :=
  match contents with
  | none => List.replicate 6 []
  | some lines =>
    (lines.drop 1).foldl (fun buckets line =>
      let fields := csvSplit delim line
      if fields.length < 2 then buckets
      else
        match stod (fields.getD 1 "") with
        | none => buckets
        | some sc =>
          let b := getDarknessBucket sc
          buckets.set b (buckets.getD b [] ++ [⟨fields.getD 0 "", sc⟩]))
      (List.replicate 6 [])

/-- `buckets[i].empty()`: out-of-range indices read as empty (the C++
code never indexes out of range; the default only keeps `getD` total). -/
def isEmptyAt (buckets : List (List DarkScoreResult)) (i : Nat) : Bool :=
  (buckets.getD i []).isEmpty

/-- The fallback-search `while` loop shared by `BucketIterator::getNext`
and the single-run mode of `main` in darkscore-select.cpp, over an
emptiness predicate `emp` on bucket indices:

    while (buckets[chosen].empty() && offset < 6) {
      offset++;
      if (target+offset < 6 && !buckets[target+offset].empty()) { chosen = target+offset; break; }
      if (target-offset >= 0 && !buckets[target-offset].empty()) { chosen = target-offset; break; }
    }

`offset < 6` bounds the loop at 6 iterations, so `fuel = 6 - offset`
makes the recursion structural without changing its meaning: when `fuel`
runs out, `offset` has reached 6 and the guard is false anyway. -/
def chooseBucketGo (emp : Nat → Bool) (target : Nat) :
    Nat → Nat → Nat → Nat
  | chosen, _, 0 => chosen
  | chosen, offset, fuel + 1 =>
    if emp chosen ∧ offset < 6 then
      let o := offset + 1
      if target + o < 6 ∧ ¬ emp (target + o) then target + o
      else if o ≤ target ∧ ¬ emp (target - o) then target - o
      else chooseBucketGo emp target chosen o fuel
    else chosen

/-- The fallback search entered with `chosen = target`, `offset = 0`. -/
def chooseBucket (emp : Nat → Bool) (target : Nat) : Nat :=
  chooseBucketGo emp target target 0 6

/-- The bucket `getNext` reads from, as the code computes it: the result
of the fallback loop, or `none` when that bucket is still empty (the
path on which the code throws the "exhausted" error). -/
def codeFallbackChoice (buckets : List (List DarkScoreResult))
    (target : Nat) : Option Nat :=
  let c := chooseBucket (fun i => isEmptyAt buckets i) target
  if isEmptyAt buckets c then none else some c

/-- Modelled from the spec's words (§4.5 step 1): the scan order
`target, target+1, target-1, target+2, target-2, …`, keeping only
indices within `[0, 5]`. -/
def scanOrder (target : Nat) : List Nat :=
  target :: ((List.range 6).drop 1).flatMap (fun o =>
    (if target + o < 6 then [target + o] else []) ++
    (if o ≤ target then [target - o] else []))

/-- Modelled from the spec's words (§4.5 step 1): the first non-empty
bucket in the scan order, `none` when every bucket is empty. -/
def specFallbackChoice (buckets : List (List DarkScoreResult))
    (target : Nat) : Option Nat :=
  (scanOrder target).find? (fun i => !(isEmptyAt buckets i))

/-- The state of `BucketIterator` from darkscore-select.cpp
(`lastUsedBucket` is a C++ `int`, initially `-1`). -/
structure BucketIterator where
  shuffledBuckets : List (List DarkScoreResult)
  currentIndices : List Nat
  lastUsedBucket : Int
deriving DecidableEq, Repr

/-- `BucketIterator::getNext` from darkscore-select.cpp.  The two
`std::shuffle` call sites are given explicit permutation-valued
parameters: `shufSwitch` for the bucket-switch reshuffle and `shufWrap`
for the wrap reshuffle.

Faithfulness note on the return value: the C++ code binds
`const auto& result = shuffledBuckets[chosenBucket][currentIdx];` — a
reference to the vector slot — *before* advancing the cursor, but the
value is only copied out by `return result;` *after* the wrap branch has
reshuffled the vector in place.  Hence on a wrap the returned value is
whatever element the wrap reshuffle leaves in slot `currentIdx`
(the last slot), not the element that occupied it when the reference was
bound.  The embedding reads the slot from the post-reshuffle bucket. -/
def BucketIterator.getNext
    (shufSwitch shufWrap : List DarkScoreResult → List DarkScoreResult)
    (st : BucketIterator) (targetBucket : Nat) :
    Except String (DarkScoreResult × BucketIterator) :=
  let chosen := chooseBucket (fun i => isEmptyAt st.shuffledBuckets i) targetBucket
  if isEmptyAt st.shuffledBuckets chosen then
    .error "No wallpapers available in any brightness bucket!"
  else
    let st1 :=
      if (chosen : Int) ≠ st.lastUsedBucket then
        { shuffledBuckets :=
            st.shuffledBuckets.set chosen
              (shufSwitch (st.shuffledBuckets.getD chosen [])),
          currentIndices := st.currentIndices.set chosen 0,
          lastUsedBucket := (chosen : Int) }
      else st
    let bucket := st1.shuffledBuckets.getD chosen []
    let idx := st1.currentIndices.getD chosen 0
    let newIdx := idx + 1
    if newIdx ≥ bucket.length then
      let bucket2 := shufWrap bucket
      .ok (bucket2.getD idx ⟨"", 0⟩,
        { st1 with
          shuffledBuckets := st1.shuffledBuckets.set chosen bucket2,
          currentIndices := st1.currentIndices.set chosen 0 })
    else
      .ok (bucket.getD idx ⟨"", 0⟩,
        { st1 with currentIndices := st1.currentIndices.set chosen newIdx })

/-- Two consecutive `getNext` calls on the same target; the first call's
shuffles are the identity permutation (a legitimate `std::shuffle`
outcome), the second call's wrap reshuffle is `shufWrap2`. -/
def getNextTwice (shufWrap2 : List DarkScoreResult → List DarkScoreResult)
    (st : BucketIterator) (target : Nat) :
    Option (DarkScoreResult × DarkScoreResult) :=
  match st.getNext id id target with
  | .error _ => none
  | .ok (r1, st1) =>
    match st1.getNext id shufWrap2 target with
    | .error _ => none
    | .ok (r2, _) => some (r1, r2)

/-- The body of the `while (true)` selection loop in darkscore-select's
`main` (loop/daemon mode): either a wallpaper is selected, or the thrown
exception is caught, logged and the attempt retried after a cooldown.
The `try`/`catch (const std::exception&)` wraps the whole body, so no
exception escapes the loop and there is no terminating outcome. -/
inductive LoopOutcome where
  | selected (chosen : DarkScoreResult) (next : BucketIterator)
  | retryAfterCooldown (loggedError : String)
deriving Repr

/-- One iteration of the selection loop from darkscore-select.cpp
`main`: compute the target bucket for the hour, call `getNext`, and on
an exception fall into the catch-log-sleep-retry path. -/
def selectionLoopBody
    (shufSwitch shufWrap : List DarkScoreResult → List DarkScoreResult)
    (st : BucketIterator) (hour : Int) : LoopOutcome :=
  match st.getNext shufSwitch shufWrap (getTargetBucketForHour hour) with
  | .ok (r, st1) => .selected r st1
  | .error e => .retryAfterCooldown e

/-- `hasImages` check in darkscore-select's `main`: some bucket is
non-empty. -/
def hasImages (buckets : List (List DarkScoreResult)) : Bool :=
  buckets.any (fun b => ¬ b.isEmpty)

/-- Exit code of darkscore-select as a function of the loaded buckets:
`main` returns 1 when no bucket has an image, and 0 at the end of the
single-run mode (with images present, the fallback search always finds a
non-empty bucket, so the catch-return-1 path is unreachable). -/
def darkscoreSelectExitCode (stod : String → Option ℚ) (delim : Char)
    (contents : Option (List String)) : Nat :=
  if hasImages (loadBuckets stod delim contents) then 0 else 1

/-- `ValidationResult` from validator.cpp. -/
structure ValidationResult where
  filePath : String
  filename : String
  isValid : Bool
  width : Nat
  height : Nat
deriving DecidableEq, Repr

/-- `fs::path(p).filename()`: the component after the last `/`. -/
def basenameOf (path : String) : String :=
  (path.splitOn "/").getLastD path

/-- `ImageValidator::validateImage` from validator.cpp.  `decode` is the
`cv::imread` oracle: `some (w, h)` when the image decodes, `none` when
`imread` returns an empty matrix or throws (both caught paths set
`isValid = false`, `width = height = 0`).  The function is total: a
decode failure becomes a result value, never an escaping error. -/
def validateImage (decode : String → Option (Nat × Nat))
    (imagePath : String) : ValidationResult :=
  match decode imagePath with
  | some (w, h) =>
    { filePath := imagePath, filename := basenameOf imagePath,
      isValid := true, width := w, height := h }
  | none =>
    { filePath := imagePath, filename := basenameOf imagePath,
      isValid := false, width := 0, height := 0 }

/-- Shared state of the validator's worker pool: the `ThreadSafeQueue`
of pending paths (FIFO) and the mutex-guarded `m_Results` vector. -/
structure PoolState where
  queue : List String
  results : List ValidationResult
deriving DecidableEq, Repr

/-- One loop iteration of `ImageValidator::workerThread`: pop the front
item (the queue's mutex serializes pops) and append its validation
result to `m_Results` (the results mutex serializes appends); when the
queue is empty the `pop` times out and the iteration is a no-op (the
worker exits its loop). -/
def poolStep (validate : String → ValidationResult) (s : PoolState) :
    PoolState :=
  match s.queue with
  | [] => s
  | p :: rest => { queue := rest, results := s.results ++ [validate p] }

/-- A run of the validator's pool with `n` workers under an arbitrary
schedule (the list of worker ids in the order the scheduler grants them
a pop): each scheduled worker performs one pop-validate-record
iteration.  Workers are symmetric, so the id itself does not influence
the step. -/
def runPool (n : Nat) (validate : String → ValidationResult)
    (s : PoolState) : List (Fin n) → PoolState
  | [] => s
  | _w :: sched => runPool n validate (poolStep validate s) sched

/-- Worker-thread count of `ImageValidator` (default constructor,
validator.cpp): `std::thread::hardware_concurrency()` taken as is — the
constructor has no fallback for a failed detection (which reports 0). -/
def validatorNumThreads (hardwareConcurrency : Nat) : Nat :=
  hardwareConcurrency

/-- Worker-thread count of `processImages` (grouper.cpp):
`std::thread::hardware_concurrency()`, with a fallback to 4 when
detection fails and reports 0. -/
def grouperNumThreads (hardwareConcurrency : Nat) : Nat :=
  if hardwareConcurrency = 0 then 4 else hardwareConcurrency

/-- Exit code of validator.cpp's `main` as a function of the folder
scan: a filesystem error during the scan calls `exit(1)`; otherwise the
program reaches the end of `main` and returns 0 — also when the scan
found zero files (`scanFolder` just prints "No images found to
validate." and returns). -/
def validatorExitCode (scan : Except Unit (List String)) : Nat :=
  match scan with
  | .error _ => 1
  | .ok _ => 0

/-- Exit code of grouper.cpp's `processImages` gate as a function of the
scan count: `if (!(count > 0)) exit(1);`, otherwise the run continues
and `main` returns 0. -/
def grouperExitCode (scanCount : Nat) : Nat :=
  if scanCount > 0 then 0 else 1

/-- Per-image step of the grouper's `processImageThread` lambda
(grouper.cpp): `decodeOk` is the `cv::imread`-succeeded oracle and
`classify` the dominant-color extraction plus `assignImageToGroup`
collaborator, returning the assigned group name and score.  When the
image fails to decode the thread logs and `continue`s: the image keeps
no group assignment (`none`) and the processed counter is NOT
incremented.  Returns the per-image assignments (in chunk order) and
the processed-counter increment. -/
def processImageChunk (decodeOk : String → Bool)
    (classify : String → String × ℚ) :
    List String → List (String × Option (String × ℚ)) × Nat
  | [] => ([], 0)
  | p :: rest =>
    let r := processImageChunk decodeOk classify rest
    if decodeOk p then
      ((p, some (classify p)) :: r.1, r.2 + 1)
    else
      ((p, none) :: r.1, r.2)

/-- Recorded results of a grouper chunk: the images that actually got a
group assignment (the report and summary both filter on
`!assignedGroup.empty()`). -/
def recordedAssignments
    (recs : List (String × Option (String × ℚ))) : Nat :=
  (recs.filter (fun r => r.2.isSome)).length

/-- Synchronization-relevant events of a record operation, in program
order. -/
inductive SyncEvent where
  | acquireLock
  | releaseLock
  | writeCounter (groupId : Nat)
  | writeResults
deriving DecidableEq, Repr

/-- Is an event a write to the aggregator's shared state? -/
def SyncEvent.isWrite : SyncEvent → Bool
  | .writeCounter _ => true
  | .writeResults => true
  | _ => false

/-- The tail of `assignImageToGroup` (grouper.cpp), in source order:

    { colorGroups[bestGroupId].counter++;
      std::lock_guard<std::mutex> lock(processMutex); }

The counter increment executes first; the `lock_guard` is constructed
after it and destroyed at the end of the same block. -/
def grouperRecordTrace (bestGroupId : Nat) : List SyncEvent :=
  [.writeCounter bestGroupId, .acquireLock, .releaseLock]

/-- The record block of `ImageValidator::workerThread` (validator.cpp):

    { std::lock_guard<std::mutex> lock(m_ResultsMutex);
      m_Results.push_back(result); }
-/
def validatorRecordTrace : List SyncEvent :=
  [.acquireLock, .writeResults, .releaseLock]

/-- Whether the lock is held after executing a prefix of the trace. -/
def lockHeldAfter (tr : List SyncEvent) : Bool :=
  tr.foldl (fun held e =>
    match e with
    | .acquireLock => true
    | .releaseLock => false
    | _ => held) false

/-- Every write event of the trace executes while the lock is held. -/
def writesUnderLock (tr : List SyncEvent) : Bool :=
  (List.range tr.length).all (fun i =>
    match tr.getD i .releaseLock with
    | .writeCounter _ => lockHeldAfter (tr.take i)
    | .writeResults => lockHeldAfter (tr.take i)
    | _ => true)

/-- `supportedExtensions` from utils.cpp (identical list in
validator.cpp). -/
def supportedExtensions : List String :=
  [".jpg", ".jpeg", ".png", ".bmp", ".tiff", ".tif", ".webp", ".gif"]

/-- `filename.find_last_of(".")`: the index of the last `.`, or `none`
for `std::string::npos`. -/
def findLastDot (filename : String) : Option Nat :=
  (List.range filename.data.length).reverse.find?
    (fun i => filename.data.getD i ' ' = '.')

/-- Per-character `::tolower` applied by `std::transform`. -/
def lowerString (s : String) : String :=
  String.mk (s.data.map Char.toLower)

/-- `isSupportedFormat` from utils.cpp (the copy in validator.cpp is
textually identical):

    std::string extension = filename.substr(filename.find_last_of("."));
    std::transform(..., ::tolower);
    return std::find(supportedExtensions..., extension) != end;

When the filename contains no `.`, `find_last_of` returns `npos` and
`substr(npos)` throws `std::out_of_range`, modelled as `.error ()`. -/
def isSupportedFormat (filename : String) : Except Unit Bool :=
  match findLastDot filename with
  | none => .error ()
  | some i =>
    let extension := lowerString (String.mk (filename.data.drop i))
    .ok (supportedExtensions.contains extension)

/-- The filtering pass of `scanFolder` (utils.cpp) /
`ImageValidator::scanFolder` (validator.cpp) over the regular-file names
the directory iterator yields: keep the supported ones.  An
`std::out_of_range` escaping `isSupportedFormat` is not caught by either
caller (they catch only `fs::filesystem_error`), so it aborts the scan,
modelled by the error short-circuiting the fold. -/
def scanCatalog : List String → Except Unit (List String)
  | [] => .ok []
  | f :: rest =>
    match isSupportedFormat f with
    | .error e => .error e
    | .ok true => do pure (f :: (← scanCatalog rest))
    | .ok false => scanCatalog rest

/-- A source file as `fs::path` decomposes it in `moveCorruptedFiles`:
`stem()` and `extension()` (the extension includes its dot). -/
structure FsName where
  stem : String
  ext : String
deriving DecidableEq, Repr

/-- The destination-name sequence tried by the collision loop of
`ImageValidator::moveCorruptedFiles`: first `stem + extension`, then
`stem + "_" + std::to_string(counter) + extension` for
`counter = 1, 2, …`. -/
def candidateName (stem ext : String) : Nat → String
  | 0 => stem ++ ext
  | k + 1 => stem ++ "_" ++ toString (k + 1) ++ ext

/-- The `while (fs::exists(destPath))` collision loop from
`moveCorruptedFiles`, trying `candidateName` for `k, k+1, …` and
returning the first name not present.  `fuel` only bounds the recursion
so that it is structural; `existing.length + 1` attempts suffice for
every run this development evaluates. -/
def findFreeNameGo (existing : List String) (stem ext : String) :
    Nat → Nat → Option String
  | _, 0 => none
  | k, fuel + 1 =>
    let c := candidateName stem ext k
    if c ∈ existing then findFreeNameGo existing stem ext (k + 1) fuel
    else some c

/-- The destination name `moveCorruptedFiles` picks for one source file
against the set of names already in the quarantine folder. -/
def findFreeName (existing : List String) (stem ext : String) :
    Option String :=
  findFreeNameGo existing stem ext 0 (existing.length + 1)

/-- Result of a `moveCorruptedFiles` run: the quarantine directory has
been created (`fs::create_directories` runs before any move), each moved
file with the destination name chosen for it, and the final contents of
the quarantine folder. -/
structure QuarantineRun where
  dirCreated : Bool
  moves : List (FsName × String)
  existing : List String
deriving DecidableEq, Repr

/-- The move loop of `moveCorruptedFiles`: each corrupted file in turn
gets the first free destination name and `fs::rename` adds that name to
the folder (never replacing an existing entry). -/
def moveFilesGo : List FsName → List String →
    List (FsName × String) × List String
  | [], existing => ([], existing)
  | f :: rest, existing =>
    match findFreeName existing f.stem f.ext with
    | none => moveFilesGo rest existing
    | some dest =>
      let r := moveFilesGo rest (existing ++ [dest])
      ((f, dest) :: r.1, r.2)

/-- `ImageValidator::moveCorruptedFiles` from validator.cpp, over the
corrupted files (as stem/extension pairs) and the names initially
present in the quarantine folder. -/
def moveCorruptedFiles (files : List FsName) (existing0 : List String) :
    QuarantineRun :=
  let r := moveFilesGo files existing0
  { dirCreated := true, moves := r.1, existing := r.2 }

/-- State carried across ticks by `printThread` (grouper.cpp):
`prev_processed`, the `speed_samples` vector, and `top_speed`. -/
structure ReporterState where
  prevProcessed : Nat
  speedSamples : List ℚ
  topSpeed : ℚ
deriving DecidableEq, Repr

/-- `instant_speed` of a tick: `(current - prev_processed) / time_delta`
when the delta of the clock is positive, else 0 (the `size_t`
subtraction equals truncated subtraction because the processed counter
never decreases). -/
def instantSpeed (prev current : Nat) (timeDelta : ℚ) : ℚ :=
  if 0 < timeDelta then ((current - prev : Nat) : ℚ) / timeDelta else 0

/-- The sample-vector update of a tick: push the instant rate only when
the processed count advanced (`current > prev_processed`), then
`erase(begin)` when the vector exceeds `max_samples = 10`. -/
def updateSamples (samples : List ℚ) (advanced : Bool) (instant : ℚ) :
    List ℚ :=
  if advanced then
    let s := samples ++ [instant]
    if s.length > 10 then s.drop 1 else s
  else samples

/-- `avg_speed` of a tick: the mean of the current samples, 0 when there
are none. -/
def avgSpeed (samples : List ℚ) : ℚ :=
  if samples.isEmpty then 0 else samples.sum / samples.length

/-- The ETA of a tick: `(total - current) / avg_speed`, reported only
when `avg_speed > 0 && current < total`, otherwise absent (`eta_str`
stays empty). -/
def etaOf (total current : Nat) (avg : ℚ) : Option ℚ :=
  if 0 < avg ∧ current < total then
    some (((total - current : Nat) : ℚ) / avg)
  else none

/-- One tick of `printThread` (grouper.cpp): read the processed counter,
compute the instant rate, update the moving-average samples, compute the
average, the ETA and the peak rate.  Returns the next state, the average
rate and the reported ETA. -/
def reporterTick (total : Nat) (st : ReporterState) (current : Nat)
    (timeDelta : ℚ) : ReporterState × ℚ × Option ℚ :=
  let instant := instantSpeed st.prevProcessed current timeDelta
  let samples := updateSamples st.speedSamples
    (decide (st.prevProcessed < current)) instant
  let avg := avgSpeed samples
  ({ prevProcessed := current, speedSamples := samples,
     topSpeed := max st.topSpeed avg },
   avg, etaOf total current avg)

/-- A run of the reporter loop over a list of ticks, each tick giving
the processed count read and the clock delta observed. -/
def runReporter (total : Nat) (st : ReporterState) :
    List (Nat × ℚ) → ReporterState
  | [] => st
  | (c, dt) :: evs => runReporter total (reporterTick total st c dt).1 evs

/-- The instant-rate samples a run appends (one per tick on which the
processed count advanced), in tick order. -/
def sampleHistory (prev : Nat) : List (Nat × ℚ) → List ℚ
  | [] => []
  | (c, dt) :: evs =>
    (if prev < c then [instantSpeed prev c dt] else []) ++ sampleHistory c evs

/-- The last `n` elements of a list. -/
def lastN (n : Nat) (l : List α) : List α :=
  l.drop (l.length - n)

/-- An emptiness mask over the 6 bucket indices, for deciding the
fallback-search equivalence by cases on the six booleans. -/
def maskEmp (e0 e1 e2 e3 e4 e5 : Bool) : Nat → Bool :=
  fun i => [e0, e1, e2, e3, e4, e5].getD i true

/-- `codeFallbackChoice` factored through an emptiness predicate. -/
def codeChoiceEmp (emp : Nat → Bool) (target : Nat) : Option Nat :=
  let c := chooseBucket emp target
  if emp c then none else some c

/-- `specFallbackChoice` factored through an emptiness predicate. -/
def specChoiceEmp (emp : Nat → Bool) (target : Nat) : Option Nat :=
  (scanOrder target).find? (fun i => !(emp i))

/-- The `[empty, empty, {A}, empty, empty, empty]` fixture from the
spec's fallback-correctness property, as a fresh `BucketIterator`. -/
def fallbackDemoState : BucketIterator :=
  { shuffledBuckets := [[], [], [⟨"A", 1⟩], [], [], []],
    currentIndices := [0, 0, 0, 0, 0, 0],
    lastUsedBucket := -1 }

/-- A fresh `BucketIterator` over a two-element bucket 0, as built by
the constructor when the initial shuffle leaves `[A, B]` in place (the
identity permutation is a possible `std::shuffle` outcome). -/
def wrapDemoState : BucketIterator :=
  { shuffledBuckets := [[⟨"A", 1⟩, ⟨"B", 1⟩], [], [], [], [], []],
    currentIndices := [0, 0, 0, 0, 0, 0],
    lastUsedBucket := -1 }

/-! ## Theorems -/

/-- Over the six-boolean emptiness mask, the code's fallback loop and the
spec's outward scan pick the same bucket, for every mask and target. -/
theorem choiceEmp_eq_mask : ∀ (e0 e1 e2 e3 e4 e5 : Bool) (t : Fin 6),
    codeChoiceEmp (maskEmp e0 e1 e2 e3 e4 e5) (t : Nat) =
      specChoiceEmp (maskEmp e0 e1 e2 e3 e4 e5) (t : Nat) := by
  decide

/-- The bucket-emptiness predicate of a six-bucket list is the mask of
its six emptiness bits. -/
theorem isEmptyAt_eq_mask (l0 l1 l2 l3 l4 l5 : List DarkScoreResult) :
    (fun i => isEmptyAt [l0, l1, l2, l3, l4, l5] i) =
      maskEmp l0.isEmpty l1.isEmpty l2.isEmpty l3.isEmpty l4.isEmpty
        l5.isEmpty := by
  funext i
  match i with
  | 0 => rfl
  | 1 => rfl
  | 2 => rfl
  | 3 => rfl
  | 4 => rfl
  | 5 => rfl
  | n + 6 => rfl

/-- C2: the fallback search of `getNext` chooses exactly the first
non-empty bucket in the scan order `target, target+1, target-1,
target+2, target-2, …` restricted to `[0, 5]` — `+o` checked before
`-o` at each offset — for every bucket configuration and every valid
target; in particular for buckets `[empty, empty, {A}, empty, empty,
empty]` and target 0 the chosen bucket is 2, and `getNext` on that
fixture returns the item A of bucket 2. -/
theorem fallback_search_matches_spec
    (buckets : List (List DarkScoreResult)) (target : Nat)
    (hlen : buckets.length = 6) (ht : target < 6) :
    codeFallbackChoice buckets target = specFallbackChoice buckets target ∧
    codeFallbackChoice [[], [], [⟨"A", 1⟩], [], [], []] 0 = some 2 ∧
    (∃ st2, fallbackDemoState.getNext id id 0 = .ok (⟨"A", 1⟩, st2)) := by
  refine ⟨?_, rfl, ⟨_, rfl⟩⟩
  obtain ⟨l0, l1, l2, l3, l4, l5, rfl⟩ :
      ∃ a b c d e f, buckets = [a, b, c, d, e, f] := by
    rcases buckets with _ | ⟨a, _ | ⟨b, _ | ⟨c, _ | ⟨d, _ | ⟨e, _ | ⟨f, rest⟩⟩⟩⟩⟩⟩
    · simp at hlen
    · simp at hlen
    · simp at hlen
    · simp at hlen
    · simp at hlen
    · simp at hlen
    · have hrest : rest = [] := List.eq_nil_of_length_eq_zero (by
        simp only [List.length_cons] at hlen
        omega)
      subst hrest
      exact ⟨a, b, c, d, e, f, rfl⟩
  have hmask := isEmptyAt_eq_mask l0 l1 l2 l3 l4 l5
  have h := choiceEmp_eq_mask l0.isEmpty l1.isEmpty l2.isEmpty l3.isEmpty
    l4.isEmpty l5.isEmpty ⟨target, ht⟩
  show codeChoiceEmp (fun i => isEmptyAt [l0, l1, l2, l3, l4, l5] i) target
      = specChoiceEmp (fun i => isEmptyAt [l0, l1, l2, l3, l4, l5] i) target
  rw [hmask]
  exact h

/-- Witness for C2 at the spec's own fixture. -/
theorem fallback_search_matches_spec_witness :
    codeFallbackChoice [[], [], [⟨"A", 1⟩], [], [], []] 0
        = specFallbackChoice [[], [], [⟨"A", 1⟩], [], [], []] 0 ∧
    codeFallbackChoice [[], [], [⟨"A", 1⟩], [], [], []] 0 = some 2 ∧
    (∃ st2, fallbackDemoState.getNext id id 0 = .ok (⟨"A", 1⟩, st2)) :=
  fallback_search_matches_spec [[], [], [⟨"A", 1⟩], [], [], []] 0 rfl
    (by decide)

/-- C1 is violated by the code: the C++ reference bound to the bucket
slot is copied into the return value only *after* the wrap branch has
reshuffled the vector in place, so the wrapping call returns whatever
element the wrap reshuffle leaves in the last slot — not the element
that was at the cursor before the reshuffle.  On the two-element bucket
`[A, B]` with the wrap reshuffle reversing the bucket (a legitimate
permutation, third conjunct), two consecutive `getNext` calls return A
twice: the cycle is not exhaustive. -/
theorem getNext_wrap_returns_reshuffled_slot :
    getNextTwice List.reverse wrapDemoState 0
        = some (⟨"A", 1⟩, ⟨"A", 1⟩) ∧
    ¬ List.Perm [(⟨"A", 1⟩ : DarkScoreResult), ⟨"A", 1⟩]
        [(⟨"A", 1⟩ : DarkScoreResult), ⟨"B", 1⟩] ∧
    List.Perm
      (List.reverse [(⟨"A", 1⟩ : DarkScoreResult), ⟨"B", 1⟩])
      [(⟨"A", 1⟩ : DarkScoreResult), ⟨"B", 1⟩] :=
  ⟨rfl, by decide, List.reverse_perm _⟩

/-- C4 is violated by the validator: when the recursive scan finds zero
files, `scanFolder` prints "No images found to validate." and returns,
`main` falls through the summary (no corrupted files) and returns 0,
not 1. -/
theorem validator_empty_scan_exits_zero :
    validatorExitCode (Except.ok []) = 0 ∧
    validatorExitCode (Except.ok []) ≠ 1 := by
  decide

/-- C4 (amended): darkscore-select returns 1 when the loaded CSV yields
no items (also when the file cannot be opened, which loads the six
empty buckets) and 0 otherwise; the grouper exits 1 when the scan count
is 0 and returns 0 otherwise; the validator exits 1 only on a
filesystem error during the scan, and returns 0 for every successful
scan — including the empty one. -/
theorem exit_codes_amended (stod : String → Option ℚ) (delim : Char)
    (contents : Option (List String))
    (hempty : hasImages (loadBuckets stod delim contents) = false) :
    darkscoreSelectExitCode stod delim contents = 1 ∧
    darkscoreSelectExitCode stod delim none = 1 ∧
    (∀ (stod2 : String → Option ℚ) (delim2 : Char)
        (contents2 : Option (List String)),
      hasImages (loadBuckets stod2 delim2 contents2) = true →
      darkscoreSelectExitCode stod2 delim2 contents2 = 0) ∧
    grouperExitCode 0 = 1 ∧
    (∀ k : Nat, grouperExitCode (k + 1) = 0) ∧
    validatorExitCode (Except.error ()) = 1 ∧
    (∀ files : List String, validatorExitCode (Except.ok files) = 0) := by
  refine ⟨?_,
    rfl,
    fun stod2 delim2 contents2 h2 => by simp [darkscoreSelectExitCode, h2],
    rfl, fun k => by simp [grouperExitCode], rfl, fun files => rfl⟩
  simp [darkscoreSelectExitCode, hempty]

/-- Witness for C4 at an unopenable input file. -/
theorem exit_codes_amended_witness :
    darkscoreSelectExitCode (fun _ => none) ',' none = 1 ∧
    darkscoreSelectExitCode (fun _ => none) ',' none = 1 ∧
    (∀ (stod2 : String → Option ℚ) (delim2 : Char)
        (contents2 : Option (List String)),
      hasImages (loadBuckets stod2 delim2 contents2) = true →
      darkscoreSelectExitCode stod2 delim2 contents2 = 0) ∧
    grouperExitCode 0 = 1 ∧
    (∀ k : Nat, grouperExitCode (k + 1) = 0) ∧
    validatorExitCode (Except.error ()) = 1 ∧
    (∀ files : List String, validatorExitCode (Except.ok files) = 0) :=
  exit_codes_amended (fun _ => none) ',' none rfl

/-- C5 is violated by the validator: its default constructor takes
`std::thread::hardware_concurrency()` as is, so a failed detection
(0) yields 0 worker threads, not the claimed fallback of 4. -/
theorem validator_thread_count_no_fallback :
    validatorNumThreads 0 = 0 ∧ validatorNumThreads 0 ≠ 4 := by
  decide

/-- C5 (amended): the grouper's pool size falls back to 4 when hardware
detection fails and otherwise uses the detected value; the validator
uses the detected value unchanged — with a failed detection its pool
has zero workers and a run of the pool processes nothing. -/
theorem worker_pool_sizing_amended :
    grouperNumThreads 0 = 4 ∧
    (∀ hc : Nat, hc ≠ 0 → grouperNumThreads hc = hc) ∧
    (∀ hc : Nat, validatorNumThreads hc = hc) ∧
    (∀ (validate : String → ValidationResult) (q : List String),
      runPool (validatorNumThreads 0) validate ⟨q, []⟩ [] = ⟨q, []⟩) := by
  refine ⟨rfl, fun hc h => ?_, fun hc => rfl, fun validate q => rfl⟩
  simp [grouperNumThreads, h]

/-- Witness for C5's amended statement at concrete thread counts. -/
theorem worker_pool_sizing_amended_witness :
    grouperNumThreads 0 = 4 ∧ grouperNumThreads 8 = 8 ∧
    validatorNumThreads 0 = 0 :=
  ⟨worker_pool_sizing_amended.1,
   worker_pool_sizing_amended.2.1 8 (by decide), rfl⟩

/-- Every bucket of an all-empty bucket list reads as empty, at every
index. -/
theorem isEmptyAt_of_all_empty (buckets : List (List DarkScoreResult))
    (h : ∀ b ∈ buckets, b = []) (i : Nat) :
    isEmptyAt buckets i = true := by
  unfold isEmptyAt
  rcases lt_or_ge i buckets.length with hi | hi
  · have hmem : buckets.getD i [] ∈ buckets := by
      rw [List.getD_eq_getElem _ _ hi]
      exact List.getElem_mem _
    rw [h _ hmem]
    rfl
  · rw [List.getD_eq_default _ _ hi]
    rfl

/-- C6: when every bucket is empty, `getNext` fails with the
"exhausted" runtime error, and the body of the long-running selection
loop maps that failure to the catch-log-retry-after-cooldown outcome —
the `catch (const std::exception&)` swallows it, so the loop continues
and the process never terminates on exhaustion. -/
theorem sampler_exhaustion_is_caught_and_retried
    (shufSwitch shufWrap : List DarkScoreResult → List DarkScoreResult)
    (st : BucketIterator) (hour : Int)
    (hempty : ∀ b ∈ st.shuffledBuckets, b = []) :
    st.getNext shufSwitch shufWrap (getTargetBucketForHour hour)
        = .error "No wallpapers available in any brightness bucket!" ∧
    selectionLoopBody shufSwitch shufWrap st hour
        = .retryAfterCooldown
            "No wallpapers available in any brightness bucket!" := by
  have hemp := isEmptyAt_of_all_empty st.shuffledBuckets hempty
  have h1 : st.getNext shufSwitch shufWrap (getTargetBucketForHour hour)
      = .error "No wallpapers available in any brightness bucket!" := by
    simp [BucketIterator.getNext, hemp]
  refine ⟨h1, ?_⟩
  unfold selectionLoopBody
  rw [h1]

/-- Witness for C6 on a fresh iterator with six empty buckets. -/
theorem sampler_exhaustion_witness :
    BucketIterator.getNext id id
        ⟨[[], [], [], [], [], []], [0, 0, 0, 0, 0, 0], -1⟩
        (getTargetBucketForHour 12)
      = .error "No wallpapers available in any brightness bucket!" ∧
    selectionLoopBody id id
        ⟨[[], [], [], [], [], []], [0, 0, 0, 0, 0, 0], -1⟩ 12
      = .retryAfterCooldown
          "No wallpapers available in any brightness bucket!" :=
  sampler_exhaustion_is_caught_and_retried id id
    ⟨[[], [], [], [], [], []], [0, 0, 0, 0, 0, 0], -1⟩ 12 (by decide)

/-- C9 is violated by the grouper: in `assignImageToGroup` the
per-group counter increment executes *before* the `lock_guard` on
`processMutex` is constructed (the guard is then destroyed immediately
at the end of the block, protecting nothing), so the write to
`colorGroups[bestGroupId].counter` happens with the mutex not held; the
validator's `m_Results.push_back`, by contrast, runs under its results
mutex. -/
theorem grouper_counter_increment_outside_lock :
    writesUnderLock (grouperRecordTrace 0) = false ∧
    (∀ gid : Nat, writesUnderLock (grouperRecordTrace gid) = false) ∧
    writesUnderLock validatorRecordTrace = true :=
  ⟨rfl, fun _ => rfl, rfl⟩

/-- Draining lemma for the validator's pool: when the schedule grants at
least as many pop iterations as there are queued items, the queue ends
empty and the results are exactly one validation per item, in pop
order. -/
theorem runPool_drains (n : Nat) (validate : String → ValidationResult) :
    ∀ (sched : List (Fin n)) (q : List String)
      (res : List ValidationResult), q.length ≤ sched.length →
      runPool n validate ⟨q, res⟩ sched = ⟨[], res ++ q.map validate⟩ := by
  intro sched
  induction sched with
  | nil =>
    intro q res h
    have hq : q = [] := List.eq_nil_of_length_eq_zero (Nat.le_zero.mp h)
    subst hq
    simp [runPool]
  | cons w sched ih =>
    intro q res h
    match q with
    | [] =>
      show runPool n validate (poolStep validate ⟨[], res⟩) sched = _
      simpa [poolStep] using ih [] res (Nat.zero_le _)
    | p :: rest =>
      show runPool n validate ⟨rest, res ++ [validate p]⟩ sched
          = ⟨[], res ++ (p :: rest).map validate⟩
      have hlen : rest.length ≤ sched.length := by
        simpa using Nat.le_of_succ_le_succ (by simpa using h)
      rw [ih rest (res ++ [validate p]) hlen]
      simp

/-- The grouper's per-chunk worker skips undecodable images: they are
left without a group assignment, and the processed counter counts only
the decodable ones. -/
theorem processImageChunk_skips (decodeOk : String → Bool)
    (classify : String → String × ℚ) (imgs : List String) :
    (∀ p ∈ imgs, decodeOk p = false →
      (p, none) ∈ (processImageChunk decodeOk classify imgs).1) ∧
    (processImageChunk decodeOk classify imgs).2
      = (imgs.filter decodeOk).length := by
  induction imgs with
  | nil => exact ⟨fun p hp => absurd hp (List.not_mem_nil p), rfl⟩
  | cons p rest ih =>
    constructor
    · intro q hq hfail
      rcases List.mem_cons.mp hq with hpq | hq
      · subst hpq
        simp [processImageChunk, hfail]
      · have hmem := ih.1 q hq hfail
        by_cases hp : decodeOk p <;>
          simp [processImageChunk, hp, hmem]
    · by_cases hp : decodeOk p <;>
        simp [processImageChunk, hp, ih.2, List.filter_cons]

/-- C3 (amended): the validator's pool records exactly one result per
catalogued item — K results for a catalog of K items, no duplicates, no
omissions, for every worker count and every schedule long enough to
drain the queue — and a per-item decode failure is recorded as a result
value with `isValid = false`.  The grouper, however, *omits* decode
failures: the worker logs and `continue`s, the image keeps no group
assignment and the processed counter counts only the decodable
images. -/
theorem aggregation_completeness_amended
    (n : Nat) (decode : String → Option (Nat × Nat))
    (sched : List (Fin n)) (catalog : List String)
    (hsched : catalog.length ≤ sched.length) :
    (runPool n (validateImage decode) ⟨catalog, []⟩ sched
        = ⟨[], catalog.map (validateImage decode)⟩) ∧
    (runPool n (validateImage decode) ⟨catalog, []⟩ sched).results.length
        = catalog.length ∧
    (∀ p ∈ catalog, decode p = none →
      (validateImage decode p).isValid = false ∧
      validateImage decode p
        ∈ (runPool n (validateImage decode) ⟨catalog, []⟩ sched).results) ∧
    (∀ (decodeOk : String → Bool) (classify : String → String × ℚ)
        (imgs : List String),
      (∀ p ∈ imgs, decodeOk p = false →
        (p, none) ∈ (processImageChunk decodeOk classify imgs).1) ∧
      (processImageChunk decodeOk classify imgs).2
        = (imgs.filter decodeOk).length) := by
  have hdrain :=
    runPool_drains n (validateImage decode) sched catalog [] hsched
  refine ⟨by simpa using hdrain, ?_, ?_,
    fun decodeOk classify imgs => processImageChunk_skips decodeOk classify imgs⟩
  · rw [hdrain]
    simp
  · intro p hp hfail
    refine ⟨by simp [validateImage, hfail], ?_⟩
    rw [hdrain]
    simpa using List.mem_map_of_mem (validateImage decode) hp

/-- C3 is false as stated for the grouper: a one-item catalog whose
image fails to decode ends with zero recorded group assignments (not
K = 1) and a processed count of 0 — the decode failure is omitted, not
recorded as an invalid-result value. -/
theorem grouper_omits_decode_failure :
    recordedAssignments
        (processImageChunk (fun _ => false)
          (fun _ => ("Blue_Cool", 1)) ["bad.jpg"]).1 ≠ 1 ∧
    (processImageChunk (fun _ => false) (fun _ => ("Blue_Cool", 1))
        ["bad.jpg"]).1 = [("bad.jpg", none)] ∧
    (processImageChunk (fun _ => false) (fun _ => ("Blue_Cool", 1))
        ["bad.jpg"]).2 = 0 := by
  refine ⟨by decide, rfl, rfl⟩

/-- Witness for C3's amended statement: two workers, a one-item catalog
whose image fails to decode. -/
theorem aggregation_completeness_witness :
    (runPool 2 (validateImage (fun _ => none)) ⟨["bad.jpg"], []⟩ [0, 1]
        = ⟨[], ["bad.jpg"].map (validateImage (fun _ => none))⟩) ∧
    (runPool 2 (validateImage (fun _ => none)) ⟨["bad.jpg"], []⟩
        [0, 1]).results.length = ["bad.jpg"].length ∧
    (∀ p ∈ ["bad.jpg"], (fun _ => (none : Option (Nat × Nat))) p = none →
      (validateImage (fun _ => none) p).isValid = false ∧
      validateImage (fun _ => none) p
        ∈ (runPool 2 (validateImage (fun _ => none)) ⟨["bad.jpg"], []⟩
            [0, 1]).results) ∧
    (∀ (decodeOk : String → Bool) (classify : String → String × ℚ)
        (imgs : List String),
      (∀ p ∈ imgs, decodeOk p = false →
        (p, none) ∈ (processImageChunk decodeOk classify imgs).1) ∧
      (processImageChunk decodeOk classify imgs).2
        = (imgs.filter decodeOk).length) :=
  aggregation_completeness_amended 2 (fun _ => none) [0, 1] ["bad.jpg"]
    (by decide)

/-- Characterization of the `while (fs::exists(destPath))` loop: a
returned destination name is the candidate with the least counter (from
the starting one) that is not taken, and it is itself not taken. -/
theorem findFreeNameGo_spec (existing : List String) (stem ext : String) :
    ∀ (fuel k : Nat) (name : String),
      findFreeNameGo existing stem ext k fuel = some name →
      name ∉ existing ∧
      ∃ j, k ≤ j ∧ name = candidateName stem ext j ∧
        ∀ i, k ≤ i → i < j → candidateName stem ext i ∈ existing := by
  intro fuel
  induction fuel with
  | zero => intro k name h; cases h
  | succ fuel ih =>
    intro k name h
    unfold findFreeNameGo at h
    by_cases hc : candidateName stem ext k ∈ existing
    · rw [if_pos hc] at h
      obtain ⟨hnot, j, hkj, hname, hall⟩ := ih (k + 1) name h
      refine ⟨hnot, j, Nat.le_of_succ_le hkj, hname, fun i hki hij => ?_⟩
      by_cases hik : k + 1 ≤ i
      · exact hall i hik hij
      · have hik' : i = k := by omega
        exact hik' ▸ hc
    · rw [if_neg hc] at h
      injection h with h
      subst h
      exact ⟨hc, k, Nat.le_refl k, rfl, fun i hki hik => absurd hki (by omega)⟩

/-- C7: `moveCorruptedFiles` creates the quarantine directory before any
move; every chosen destination name is absent from the folder at the
moment of the move (no overwrite), and it is the stem with the least
numeric suffix that is unique — every earlier candidate (the bare name,
then `stem_1`, `stem_2`, …) is already taken; in particular moving two
corrupted files both named `x.jpg` into an empty quarantine folder
yields `x.jpg` and `x_1.jpg`. -/
theorem quarantine_collision_safe (existing : List String)
    (stem ext name : String)
    (hfind : findFreeName existing stem ext = some name) :
    name ∉ existing ∧
    (∃ j, name = candidateName stem ext j ∧
      ∀ i < j, candidateName stem ext i ∈ existing) ∧
    (moveCorruptedFiles [⟨"x", ".jpg"⟩, ⟨"x", ".jpg"⟩] []).dirCreated
        = true ∧
    (moveCorruptedFiles [⟨"x", ".jpg"⟩, ⟨"x", ".jpg"⟩] []).moves
        = [(⟨"x", ".jpg"⟩, "x.jpg"), (⟨"x", ".jpg"⟩, "x_1.jpg")] ∧
    (moveCorruptedFiles [⟨"x", ".jpg"⟩, ⟨"x", ".jpg"⟩] []).existing
        = ["x.jpg", "x_1.jpg"] := by
  obtain ⟨hnot, j, hj0, hname, hall⟩ :=
    findFreeNameGo_spec existing stem ext (existing.length + 1) 0 name hfind
  exact ⟨hnot, ⟨j, hname, fun i hij => hall i (Nat.zero_le i) hij⟩,
    rfl, by decide, by decide⟩

/-- Witness for C7: the second `x.jpg` against a folder already holding
`x.jpg` gets the name `x_1.jpg`. -/
theorem quarantine_collision_safe_witness :
    "x_1.jpg" ∉ ["x.jpg"] ∧
    (∃ j, "x_1.jpg" = candidateName "x" ".jpg" j ∧
      ∀ i < j, candidateName "x" ".jpg" i ∈ ["x.jpg"]) ∧
    (moveCorruptedFiles [⟨"x", ".jpg"⟩, ⟨"x", ".jpg"⟩] []).dirCreated
        = true ∧
    (moveCorruptedFiles [⟨"x", ".jpg"⟩, ⟨"x", ".jpg"⟩] []).moves
        = [(⟨"x", ".jpg"⟩, "x.jpg"), (⟨"x", ".jpg"⟩, "x_1.jpg")] ∧
    (moveCorruptedFiles [⟨"x", ".jpg"⟩, ⟨"x", ".jpg"⟩] []).existing
        = ["x.jpg", "x_1.jpg"] :=
  quarantine_collision_safe ["x.jpg"] "x" ".jpg" "x_1.jpg" (by decide)

/-- Appending one sample to the last-10 window of a history gives the
last-10 window of the extended history (the `erase(begin)` of the code
drops the oldest sample exactly when the window is full). -/
theorem updateSamples_lastN (h : List ℚ) (inst : ℚ) :
    updateSamples (lastN 10 h) true inst = lastN 10 (h ++ [inst]) := by
  simp only [updateSamples, lastN, List.length_append, List.length_drop,
    List.length_singleton]
  rw [if_pos trivial]
  split_ifs with hcond
  · have hge : 10 ≤ h.length := by omega
    rw [List.drop_append_eq_append_drop, List.drop_append_eq_append_drop,
      List.drop_drop]
    simp only [List.length_drop]
    have e1 : (1 : Nat) - (h.length - (h.length - 10)) = 0 := by omega
    have e2 : h.length + 1 - 10 - h.length = 0 := by omega
    have e3 : h.length - 10 + 1 = h.length + 1 - 10 := by omega
    rw [e1, e2, e3]
  · have hle : h.length ≤ 9 := by omega
    have e1 : h.length - 10 = 0 := by omega
    have e2 : h.length + 1 - 10 = 0 := by omega
    rw [e1, e2]
    simp

/-- Invariant of the reporter loop: if the sample vector is the last-10
window of the samples appended so far, it stays so across any sequence
of ticks. -/
theorem runReporter_samples (total : Nat) :
    ∀ (evs : List (Nat × ℚ)) (prev : Nat) (top : ℚ) (hist : List ℚ),
      (runReporter total ⟨prev, lastN 10 hist, top⟩ evs).speedSamples
        = lastN 10 (hist ++ sampleHistory prev evs) := by
  intro evs
  induction evs with
  | nil => intro prev top hist; simp [runReporter, sampleHistory]
  | cons e evs ih =>
    intro prev top hist
    obtain ⟨c, dt⟩ := e
    by_cases hadv : prev < c
    · have hstep : (reporterTick total ⟨prev, lastN 10 hist, top⟩ c dt).1
          = ⟨c, lastN 10 (hist ++ [instantSpeed prev c dt]),
              max top (avgSpeed
                (lastN 10 (hist ++ [instantSpeed prev c dt])))⟩ := by
        simp only [reporterTick]
        rw [decide_eq_true hadv, updateSamples_lastN]
      show (runReporter total
          (reporterTick total ⟨prev, lastN 10 hist, top⟩ c dt).1
          evs).speedSamples = _
      rw [hstep, ih c _ (hist ++ [instantSpeed prev c dt])]
      simp [sampleHistory, hadv, List.append_assoc]
    · have hstep : (reporterTick total ⟨prev, lastN 10 hist, top⟩ c dt).1
          = ⟨c, lastN 10 hist,
              max top (avgSpeed (lastN 10 hist))⟩ := by
        simp only [reporterTick]
        rw [decide_eq_false hadv]
        rfl
      show (runReporter total
          (reporterTick total ⟨prev, lastN 10 hist, top⟩ c dt).1
          evs).speedSamples = _
      rw [hstep, ih c _ hist]
      simp [sampleHistory, hadv]

/-- C8: after any run of ticks, the reporter's sample vector is exactly
the last (at most) 10 instant-rate samples of the run — one sample per
tick on which the processed count advanced, none for idle ticks — and
it never exceeds 10 entries; the reported moving-average rate is the
mean of the current samples; the ETA equals remaining items divided by
the moving-average rate exactly when that rate is positive and work
remains, and is unreported otherwise. -/
theorem reporter_moving_average_and_eta (total : Nat)
    (evs : List (Nat × ℚ)) :
    (runReporter total ⟨0, [], 0⟩ evs).speedSamples
        = lastN 10 (sampleHistory 0 evs) ∧
    (runReporter total ⟨0, [], 0⟩ evs).speedSamples.length ≤ 10 ∧
    (∀ (st : ReporterState) (c : Nat) (dt : ℚ), c ≤ st.prevProcessed →
      (reporterTick total st c dt).1.speedSamples = st.speedSamples) ∧
    (∀ samples : List ℚ, samples ≠ [] →
      avgSpeed samples = samples.sum / samples.length) ∧
    (∀ (st : ReporterState) (c : Nat) (dt : ℚ),
      (reporterTick total st c dt).2.1
        = avgSpeed (reporterTick total st c dt).1.speedSamples) ∧
    (∀ (st : ReporterState) (c : Nat) (dt : ℚ),
      (0 < (reporterTick total st c dt).2.1 ∧ c < total →
        (reporterTick total st c dt).2.2
          = some (((total - c : Nat) : ℚ)
              / (reporterTick total st c dt).2.1)) ∧
      (¬(0 < (reporterTick total st c dt).2.1 ∧ c < total) →
        (reporterTick total st c dt).2.2 = none)) := by
  have hrun : (runReporter total ⟨0, [], 0⟩ evs).speedSamples
      = lastN 10 (sampleHistory 0 evs) := by
    have := runReporter_samples total evs 0 0 []
    simpa [lastN] using this
  refine ⟨hrun, ?_, ?_, ?_, fun st c dt => rfl, ?_⟩
  · rw [hrun]
    simp only [lastN, List.length_drop]
    omega
  · intro st c dt hc
    simp only [reporterTick]
    rw [decide_eq_false (Nat.not_lt.mpr hc)]
    rfl
  · intro samples hne
    unfold avgSpeed
    rw [if_neg (by simpa [List.isEmpty_iff] using hne)]
  · intro st c dt
    constructor
    · intro hcond
      simp only [reporterTick, etaOf] at hcond ⊢
      rw [if_pos hcond]
    · intro hcond
      simp only [reporterTick, etaOf] at hcond ⊢
      rw [if_neg hcond]

/-- Witness for C8 on a concrete three-tick run (advance, idle,
advance). -/
theorem reporter_moving_average_witness :
    (runReporter 5 ⟨0, [], 0⟩ [(1, 1), (1, 1), (3, 1)]).speedSamples
        = lastN 10 (sampleHistory 0 [(1, 1), (1, 1), (3, 1)]) ∧
    (runReporter 5 ⟨0, [], 0⟩
        [(1, 1), (1, 1), (3, 1)]).speedSamples.length ≤ 10 ∧
    (∀ (st : ReporterState) (c : Nat) (dt : ℚ), c ≤ st.prevProcessed →
      (reporterTick 5 st c dt).1.speedSamples = st.speedSamples) ∧
    (∀ samples : List ℚ, samples ≠ [] →
      avgSpeed samples = samples.sum / samples.length) ∧
    (∀ (st : ReporterState) (c : Nat) (dt : ℚ),
      (reporterTick 5 st c dt).2.1
        = avgSpeed (reporterTick 5 st c dt).1.speedSamples) ∧
    (∀ (st : ReporterState) (c : Nat) (dt : ℚ),
      (0 < (reporterTick 5 st c dt).2.1 ∧ c < 5 →
        (reporterTick 5 st c dt).2.2
          = some (((5 - c : Nat) : ℚ) / (reporterTick 5 st c dt).2.1)) ∧
      (¬(0 < (reporterTick 5 st c dt).2.1 ∧ c < 5) →
        (reporterTick 5 st c dt).2.2 = none)) :=
  reporter_moving_average_and_eta 5 [(1, 1), (1, 1), (3, 1)]

/-- A filename containing a dot has a last-dot position
(`find_last_of` does not return `npos`). -/
theorem findLastDot_isSome (s : String) (hdot : '.' ∈ s.data) :
    (findLastDot s).isSome := by
  unfold findLastDot
  rw [List.find?_isSome]
  obtain ⟨i, hget⟩ := List.mem_iff_get.mp hdot
  refine ⟨(i : Nat), ?_, ?_⟩
  · simp only [List.mem_reverse, List.mem_range]
    exact i.isLt
  · have hi : s.data.getD (i : Nat) ' ' = '.' := by
      rw [List.getD_eq_getElem _ _ i.isLt]
      simpa using hget
    simpa using hi

/-- C10 (amended): `isSupportedFormat` returns a boolean — without
raising — for every filename that contains a '.' (true exactly for the
supported, case-insensitive extensions); but on a filename with no '.',
`find_last_of` yields `npos` and `substr(npos)` throws
`std::out_of_range`, which neither scanner catches, so the recursive
scan aborts on a regular file whose name lacks an extension. -/
theorem supported_format_totality_amended (s : String)
    (hdot : '.' ∈ s.data) :
    (∃ b, isSupportedFormat s = .ok b) ∧
    isSupportedFormat "Makefile" = .error () ∧
    isSupportedFormat "photo.JPG" = .ok true ∧
    isSupportedFormat "archive.txt" = .ok false ∧
    scanCatalog ["photo.jpg", "Makefile"] = .error () := by
  refine ⟨?_, rfl, rfl, rfl, rfl⟩
  have h := findLastDot_isSome s hdot
  obtain ⟨i, hi⟩ := Option.isSome_iff_exists.mp h
  exact ⟨_, by unfold isSupportedFormat; rw [hi]⟩

/-- C10 is false as stated: on the dotless name "Makefile",
`isSupportedFormat` does not return false — it raises
`std::out_of_range` — and the recursive scan aborts on such a file
rather than skipping it. -/
theorem supported_format_dotless_raises :
    isSupportedFormat "Makefile" ≠ .ok false ∧
    isSupportedFormat "Makefile" = .error () ∧
    scanCatalog ["photo.jpg", "Makefile"] = .error () := by
  refine ⟨?_, rfl, rfl⟩
  intro hcontra
  exact Except.noConfusion
    ((show isSupportedFormat "Makefile" = Except.error () from
      rfl).symm.trans hcontra)

/-- Witness for C10's amended statement at a dotted filename. -/
theorem supported_format_totality_witness :
    (∃ b, isSupportedFormat "photo.JPG" = .ok b) ∧
    isSupportedFormat "Makefile" = .error () ∧
    isSupportedFormat "photo.JPG" = .ok true ∧
    isSupportedFormat "archive.txt" = .ok false ∧
    scanCatalog ["photo.jpg", "Makefile"] = .error () :=
  supported_format_totality_amended "photo.JPG" (by decide)
